import Mathlib

/-!
Verification of the gist reconciliation engine
(`gist-factory/maintain_gists.py`).

The engine loads a desired-state list of gist items from JSON, segregates
them into create / update / delete / skip groups, applies the remote
operations group by group, merges the outcomes back into a single list,
writes it out, and regenerates an identifier-index document.

This file is a shallow embedding of that pipeline: Python dicts holding the
known keys become a structure, Python truthiness of the `id` string is made
explicit, remote HTTP responses become oracle functions, and the side
effects that matter (remote calls, file writes) are reified as data.
-/

/-- A JSON value, the payload type of the `content` field and of the
loader.  Mirrors what `json.load` can produce. -/
inductive Json where
  | null
  | bool (b : Bool)
  | num (n : Int)
  | str (s : String)
  | arr (elems : List Json)
  | obj (fields : List (String × Json))

/-- One desired-state record, i.e. one dict of the input list.  A field
holds `none` when the key is absent or its value is JSON `null`; the
engine only ever reads these keys via `item.get`, which conflates the two
cases exactly like this. -/
structure Item where
  id : Option String := none
  filename : Option String := none
  description : Option String := none
  content : Option Json := none
  operation : Option String := none
  raw_url : Option String := none

/-- Python truthiness of `item.get("id")`: absent and `null` give `None`
(falsy), and the empty string is falsy too. -/
def truthyId : Option String → Bool
  | none => false
  | some s => !s.isEmpty

/-- Condition of the first branch of the loop body of `segregate_gists`:
`operation == "delete" and gist_id`. -/
def isDeleteItem (i : Item) : Bool :=
  i.operation == some "delete" && truthyId i.id

/-- Condition of the second branch: `operation == "update" and gist_id`. -/
def isUpdateItem (i : Item) : Bool :=
  i.operation == some "update" && truthyId i.id

/-- Condition of the third branch:
`(operation == "create" or operation is None) and not gist_id`. -/
def isCreateItem (i : Item) : Bool :=
  (i.operation == some "create" || i.operation == none) && !truthyId i.id

/-- `segregate_gists`: one pass over the input, routing every item into
exactly one of the four accumulators, in the if/elif/elif/else order of
the source.  The delete accumulator collects the gist id only. -/
def segregate_gists : List Item → List Item × List Item × List String × List Item
  | [] => ([], [], [], [])
  | i :: rest =>
    let r := segregate_gists rest
    if isDeleteItem i then (r.1, r.2.1, i.id.getD "" :: r.2.2.1, r.2.2.2)
    else if isUpdateItem i then (r.1, i :: r.2.1, r.2.2.1, r.2.2.2)
    else if isCreateItem i then (i :: r.1, r.2.1, r.2.2.1, r.2.2.2)
    else (r.1, r.2.1, r.2.2.1, i :: r.2.2.2)

/-- The four buckets of the classifier. -/
inductive Bucket where
  | create
  | update
  | delete
  | skip
deriving DecidableEq

/-- The classification decision for a single item, with the priority order
of the source's if/elif chain. -/
def classifyItem (i : Item) : Bucket :=
  if isDeleteItem i then .delete
  else if isUpdateItem i then .update
  else if isCreateItem i then .create
  else .skip

/-- `json.dumps` of the content blob.  The engine deposits this string
under the single filename key of the payload and never inspects it again,
so the embedding keeps the structure of the serialization and abstracts
the formatting details (indentation, escaping). -/
def dumps : Json → String
  | .null => "null"
  | .bool b => if b then "true" else "false"
  | .num n => toString n
  | .str s => "\"" ++ s ++ "\""
  | .arr elems =>
      "[" ++ String.intercalate ", " (elems.attach.map (fun e => dumps e.1)) ++ "]"
  | .obj fields =>
      "\x7b" ++ String.intercalate ", "
        (fields.attach.map (fun f => "\"" ++ f.1.1 ++ "\": " ++ dumps f.1.2)) ++ "\x7d"
decreasing_by
  all_goals simp_wf
  · have := List.sizeOf_lt_of_mem e.2
    omega
  · obtain ⟨⟨a, b⟩, hf⟩ := f
    have h1 := List.sizeOf_lt_of_mem hf
    simp at h1 ⊢
    omega

/-- One file entry of a gist payload (`{"content": ...}`). -/
structure FileEntry where
  content : String
deriving DecidableEq

/-- A request payload.  `public` is `some false` for creates and absent for
updates, exactly as in the source; `files` is the dict keyed by filename. -/
structure Payload where
  description : String
  public : Option Bool := none
  files : List (String × FileEntry)
deriving DecidableEq

/-- The default used by `item.get("filename", "untitled.json")`. -/
def defaultFilename : String := "untitled.json"

/-- The payload built by `create_gists` for one item. -/
def createPayload (i : Item) : Payload :=
  { description := "Gist for " ++ i.filename.getD defaultFilename
  , public := some false
  , files := [(i.filename.getD defaultFilename,
      { content := dumps (i.content.getD (Json.obj [])) })] }

/-- The payload built by `update_gists` for one item. -/
def updatePayload (i : Item) : Payload :=
  { description := "Updated gist for " ++ i.filename.getD defaultFilename
  , public := none
  , files := [(i.filename.getD defaultFilename,
      { content := dumps (i.content.getD (Json.obj [])) })] }

/-- A remote HTTP request actually issued by the engine (the session's
`post` / `patch` / `delete`). -/
inductive RemoteCall where
  | post (payload : Payload)
  | patch (gistId : String) (payload : Payload)
  | del (gistId : String)
deriving DecidableEq

/-- Outcome of one `POST /gists`: status 201 carrying the new gist id
(`resp.json().get("id")`), or anything else — a non-201 status or a
`requests.RequestException`, which the source treats identically (log and
drop). -/
inductive CreateResp where
  | success (gistId : String)
  | failure
deriving DecidableEq

/-- Outcome of one `PATCH /gists/:id`: status 200, or anything else. -/
inductive UpdateResp where
  | success
  | failure
deriving DecidableEq

/-- Outcome of one `DELETE /gists/:id`: status 204, or anything else. -/
inductive DeleteResp where
  | success
  | failure
deriving DecidableEq

/-- `create_gists`.  `oracle n` is the remote store's answer to the
`n`-th POST issued; `k` counts the calls already made.  Returns the
created-items list and the trace of remote calls, both in input order.
An item whose `id` is already truthy is skipped without a call; the
"No files specified" branch skips without a call; dry-run renders the
payload and continues without a call; a success assigns the returned id
onto the item (`item.update({"id": gist_id})` — nothing else is written,
in particular `raw_url` is not) and collects it; a failure only logs. -/
def create_gists (items : List Item) (dry_run : Bool)
    (oracle : Nat → CreateResp) (k : Nat) : List Item × List RemoteCall :=
  match items with
  | [] => ([], [])
  | i :: rest =>
    if truthyId i.id then create_gists rest dry_run oracle k
    else
      let payload := createPayload i
      if payload.files.isEmpty then create_gists rest dry_run oracle k
      else if dry_run then create_gists rest dry_run oracle k
      else
        let r := create_gists rest dry_run oracle (k + 1)
        match oracle k with
        | .success gid => ({ i with id := some gid } :: r.1, .post payload :: r.2)
        | .failure => (r.1, .post payload :: r.2)

/-- `update_gists`.  An item without a truthy `id` is skipped without a
call; on a 200 the item is collected unchanged (the source appends `item`
as-is — no field, not even `raw_url`, is refreshed); otherwise it is
dropped. -/
def update_gists (items : List Item) (dry_run : Bool)
    (oracle : Nat → UpdateResp) (k : Nat) : List Item × List RemoteCall :=
  match items with
  | [] => ([], [])
  | i :: rest =>
    if !truthyId i.id then update_gists rest dry_run oracle k
    else
      let payload := updatePayload i
      if payload.files.isEmpty then update_gists rest dry_run oracle k
      else if dry_run then update_gists rest dry_run oracle k
      else
        let r := update_gists rest dry_run oracle (k + 1)
        match oracle k with
        | .success => (i :: r.1, .patch (i.id.getD "") payload :: r.2)
        | .failure => (r.1, .patch (i.id.getD "") payload :: r.2)

/-- `delete_gists` over the collected gist ids. -/
def delete_gists (ids : List String) (dry_run : Bool)
    (oracle : Nat → DeleteResp) (k : Nat) : List String × List RemoteCall :=
  match ids with
  | [] => ([], [])
  | gid :: rest =>
    if dry_run then delete_gists rest dry_run oracle k
    else
      let r := delete_gists rest dry_run oracle (k + 1)
      match oracle k with
      | .success => (gid :: r.1, .del gid :: r.2)
      | .failure => (r.1, .del gid :: r.2)

/-- An element of `merged_items`.  The source's merge step mixes item
dicts (from created / updated / skipped) with bare gist-id strings (the
delete re-insertion at the end of `main`), so the merged list is a list
of this sum. -/
inductive MergedEntry where
  | item (i : Item)
  | deleteId (gid : String)

/-- The merge step of `main` (the four guarded `extend`s), verbatim:
created items when the create group and the created list are non-empty,
then updated items likewise, then the skip group whenever non-empty, then
the original delete ids when the delete group was non-empty but zero
deletions succeeded. -/
def merge_items (to_create created to_update updated to_skip : List Item)
    (to_delete deleted : List String) : List MergedEntry :=
  (if !to_create.isEmpty && created.length > 0
    then created.map MergedEntry.item else [])
  ++ (if !to_update.isEmpty && updated.length > 0
    then updated.map MergedEntry.item else [])
  ++ (if to_skip.length > 0 then to_skip.map MergedEntry.item else [])
  ++ (if to_delete.length > 0 && deleted.length == 0
    then to_delete.map MergedEntry.deleteId else [])

/-- One run's configuration: the dry-run flag and the remote store's
answers, one oracle per HTTP verb, indexed by the order calls are made. -/
structure RunConfig where
  dry_run : Bool
  createOracle : Nat → CreateResp
  updateOracle : Nat → UpdateResp
  deleteOracle : Nat → DeleteResp

/-- Everything observable about one run of `main` after loading:
the four groups, each executor's collected successes, the full trace of
remote calls, the merged list, and whether the output file is (re)written
(`main` exits with "No items to write back" when the merged list is
empty, and otherwise overwrites the output path with the merged list). -/
structure RunResult where
  toCreate : List Item
  toUpdate : List Item
  toDelete : List String
  toSkip : List Item
  created : List Item
  updated : List Item
  deleted : List String
  calls : List RemoteCall
  merged : List MergedEntry
  writesOutput : Bool

/-- The body of `main` from segregation to the output write decision.
The executors are invoked only when their group is non-empty, exactly as
in the source (`if to_create:` etc.); each starts its oracle at call 0. -/
def runEngine (items : List Item) (cfg : RunConfig) : RunResult :=
  let s := segregate_gists items
  let tc := s.1
  let tu := s.2.1
  let td := s.2.2.1
  let ts := s.2.2.2
  let c := if tc.isEmpty then ([], []) else create_gists tc cfg.dry_run cfg.createOracle 0
  let u := if tu.isEmpty then ([], []) else update_gists tu cfg.dry_run cfg.updateOracle 0
  let d := if td.isEmpty then ([], []) else delete_gists td cfg.dry_run cfg.deleteOracle 0
  let merged := merge_items tc c.1 tu u.1 ts td d.1
  { toCreate := tc, toUpdate := tu, toDelete := td, toSkip := ts
  , created := c.1, updated := u.1, deleted := d.1
  , calls := c.2 ++ u.2 ++ d.2
  , merged := merged
  , writesOutput := !merged.isEmpty }

/-- The two fatal loader failures.  An unreadable or unparsable source is
caught inside `load_json` (`OSError` / `json.JSONDecodeError`), printed
and answered with `sys.exit(1)`.  A well-formed document whose root is
not a list raises `ValueError("Input JSON must be a list of gist
items.")`; that exception is NOT caught by the `except (OSError,
json.JSONDecodeError)` clauses (neither in `load_json` nor around its
call in `main`), so it propagates and the interpreter terminates the
process — also with exit code 1. -/
inductive LoadError where
  | ioError (msg : String)
  | invalidInput (msg : String)

/-- `load_json`.  Its input is the result of reading-and-parsing the
source (`json.load`): either a failure message or the parsed root value. -/
def load_json (source : Except String Json) : Except LoadError (List Json) :=
  match source with
  | .error e => .error (.ioError e)
  | .ok (Json.arr elems) => .ok elems
  | .ok _ => .error (.invalidInput "Input JSON must be a list of gist items.")

/-- The process exit code the loader forces: `some 1` on either failure
(fatal, process-terminating), `none` (continue) on success. -/
def loadExitCode : Except LoadError (List Json) → Option Nat
  | .error _ => some 1
  | .ok _ => none

/-- Python truthiness of an optional string value (`filename and gist_id`
in `generate_gist_id_json`). -/
def truthyStr : Option String → Bool
  | none => false
  | some s => !s.isEmpty

/-- One record of `all-gists.json` as `generate_gist_id_json` reads it:
`filename` and `id` via `.get`, and `history`, kept here as the list of
the `version` fields of its entries (`history[0]["version"]` is the only
access). -/
structure AllGistsRecord where
  filename : Option String := none
  id : Option String := none
  history : List String := []
deriving DecidableEq

/-- One value of the identifier-index mapping: `{"id": ..., "raw_url": ...}`. -/
structure GistMapEntry where
  id : String
  raw_url : String
deriving DecidableEq

/-- Assignment into a Python dict: an existing key keeps its position and
gets the new value, a new key is appended. -/
def upsert (m : List (String × GistMapEntry)) (k : String) (v : GistMapEntry) :
    List (String × GistMapEntry) :=
  if m.any (fun p => p.1 == k) then
    m.map (fun p => if p.1 == k then (k, v) else p)
  else m ++ [(k, v)]

/-- The retrieval URL constructed by `generate_gist_id_json`: it embeds
the version marker when one exists, and otherwise points at the mutable
head. -/
def rawUrlFor (username gid version filename : String) : String :=
  if !version.isEmpty then
    "https://gist.githubusercontent.com/" ++ username ++ "/" ++ gid ++ "/raw/"
      ++ version ++ "/" ++ filename
  else
    "https://gist.githubusercontent.com/" ++ username ++ "/" ++ gid ++ "/raw/" ++ filename

/-- The body of the `gist_map` loop of `generate_gist_id_json`: a record
lacking a truthy filename or a truthy id is passed over (`continue`),
every other record is written into the dict under its filename. -/
def gistMapStep (username : String) (m : List (String × GistMapEntry))
    (r : AllGistsRecord) : List (String × GistMapEntry) :=
  let version := r.history.headD ""
  if truthyStr r.filename && truthyStr r.id then
    let f := r.filename.getD ""
    let g := r.id.getD ""
    upsert m f ⟨g, rawUrlFor username g version f⟩
  else m

/-- The `gist_map` loop of `generate_gist_id_json` over all records. -/
def generate_map (username : String) (gists : List AllGistsRecord) :
    List (String × GistMapEntry) :=
  gists.foldl (gistMapStep username) []

/-- `generate_gist_id_json` end to end: when the `all-gists.json` read
fails the function returns having written nothing (`none`); otherwise the
index document is replaced by the computed mapping. -/
def generate_gist_id_json (username : String)
    (readResult : Except String (List AllGistsRecord)) :
    Option (List (String × GistMapEntry)) :=
  match readResult with
  | .error _ => none
  | .ok gists => some (generate_map username gists)

/-- The gist id carried by a create response (`resp.json().get("id")`);
unused on the failure path. -/
def respId : CreateResp → String
  | .success gid => gid
  | .failure => ""

/-- The created-items list when every create call is answered: item `n`
of the batch receives the id of answer `k + n`.  Spec-side companion of
`create_gists` for the all-success analysis. -/
def assignIds (items : List Item) (oracle : Nat → CreateResp) (k : Nat) : List Item :=
  match items with
  | [] => []
  | i :: rest => { i with id := some (respId (oracle k)) } :: assignIds rest oracle (k + 1)

/-- Reading the written output back as the next run's input list.  A bare
gist-id string in the merged list has no dict shape (the next run would
crash on it before classifying anything), so this conversion is used for
merged lists made of items only. -/
def itemsOfMerged (merged : List MergedEntry) : List Item :=
  merged.filterMap (fun e => match e with
    | .item i => some i
    | .deleteId _ => none)

/-- A delete-tagged input record with a truthy id. -/
def deleteItem0 : Item :=
  { id := some "g1", filename := some "a.json", operation := some "delete" }

/-- The create-scenario input record:
`{id: null, filename: "a.json", content: {k: 1}, operation: "create"}`. -/
def createItem0 : Item :=
  { filename := some "a.json", content := some (Json.obj [("k", Json.num 1)])
  , operation := some "create" }

/-- An update-tagged record with a truthy id. -/
def updateItem0 : Item :=
  { id := some "g1", filename := some "a.json", operation := some "update" }

/-- A record carrying the prior-run tag `fetched` and no id: it matches
no classification rule and is routed to skip. -/
def fetchedItem0 : Item :=
  { filename := some "a.json", operation := some "fetched" }

/-- A remote store that answers every call with success (creates are
answered with the fresh id `"g1"`). -/
def cfgAllOk : RunConfig :=
  { dry_run := false
  , createOracle := fun _ => .success "g1"
  , updateOracle := fun _ => .success
  , deleteOracle := fun _ => .success }

/-- An `all-gists.json` record with an id but no filename. -/
def noNameRecord : AllGistsRecord := { id := some "g1" }

/-- An `all-gists.json` record with filename, id and one history entry. -/
def fullRecord : AllGistsRecord :=
  { filename := some "a.json", id := some "g1", history := ["v1"] }
lemma segregate_gists_eq_filters (items : List Item) :
    segregate_gists items =
      (items.filter (fun i => classifyItem i == Bucket.create),
       items.filter (fun i => classifyItem i == Bucket.update),
       (items.filter (fun i => classifyItem i == Bucket.delete)).map
         (fun i => i.id.getD ""),
       items.filter (fun i => classifyItem i == Bucket.skip)) := by
  induction items with
  | nil => rfl
  | cons i rest ih =>
    simp only [segregate_gists, ih, classifyItem, List.filter_cons]
    by_cases h1 : isDeleteItem i = true
    · simp [h1]
    · by_cases h2 : isUpdateItem i = true
      · simp [h1, h2]
      · by_cases h3 : isCreateItem i = true
        · simp [h1, h2, h3]
        · simp [h1, h2, h3]

lemma segregate_gists_length (items : List Item) :
    (segregate_gists items).1.length + (segregate_gists items).2.1.length +
      (segregate_gists items).2.2.1.length + (segregate_gists items).2.2.2.length
      = items.length := by
  induction items with
  | nil => rfl
  | cons i rest ih =>
    simp only [segregate_gists]
    by_cases h1 : isDeleteItem i = true
    · simp only [h1, if_pos]
      simp only [List.length_cons]
      omega
    · by_cases h2 : isUpdateItem i = true
      · simp [h1, h2]; omega
      · by_cases h3 : isCreateItem i = true
        · simp [h1, h2, h3]; omega
        · simp [h1, h2, h3]; omega

lemma runEngine_toCreate (items : List Item) (cfg : RunConfig) :
    (runEngine items cfg).toCreate
      = items.filter (fun i => classifyItem i == Bucket.create) := by
  show (segregate_gists items).1 = _
  rw [segregate_gists_eq_filters]

lemma runEngine_toUpdate (items : List Item) (cfg : RunConfig) :
    (runEngine items cfg).toUpdate
      = items.filter (fun i => classifyItem i == Bucket.update) := by
  show (segregate_gists items).2.1 = _
  rw [segregate_gists_eq_filters]

lemma runEngine_toDelete (items : List Item) (cfg : RunConfig) :
    (runEngine items cfg).toDelete
      = (items.filter (fun i => classifyItem i == Bucket.delete)).map
          (fun i => i.id.getD "") := by
  show (segregate_gists items).2.2.1 = _
  rw [segregate_gists_eq_filters]

lemma runEngine_toSkip (items : List Item) (cfg : RunConfig) :
    (runEngine items cfg).toSkip
      = items.filter (fun i => classifyItem i == Bucket.skip) := by
  show (segregate_gists items).2.2.2 = _
  rw [segregate_gists_eq_filters]

lemma runEngine_created (items : List Item) (cfg : RunConfig) :
    (runEngine items cfg).created
      = (if (runEngine items cfg).toCreate.isEmpty then ([], [])
         else create_gists (runEngine items cfg).toCreate cfg.dry_run
           cfg.createOracle 0).1 := rfl

lemma runEngine_updated (items : List Item) (cfg : RunConfig) :
    (runEngine items cfg).updated
      = (if (runEngine items cfg).toUpdate.isEmpty then ([], [])
         else update_gists (runEngine items cfg).toUpdate cfg.dry_run
           cfg.updateOracle 0).1 := rfl

lemma runEngine_deleted (items : List Item) (cfg : RunConfig) :
    (runEngine items cfg).deleted
      = (if (runEngine items cfg).toDelete.isEmpty then ([], [])
         else delete_gists (runEngine items cfg).toDelete cfg.dry_run
           cfg.deleteOracle 0).1 := rfl

lemma runEngine_calls (items : List Item) (cfg : RunConfig) :
    (runEngine items cfg).calls
      = (if (runEngine items cfg).toCreate.isEmpty then ([], [])
         else create_gists (runEngine items cfg).toCreate cfg.dry_run
           cfg.createOracle 0).2
        ++ (if (runEngine items cfg).toUpdate.isEmpty then ([], [])
         else update_gists (runEngine items cfg).toUpdate cfg.dry_run
           cfg.updateOracle 0).2
        ++ (if (runEngine items cfg).toDelete.isEmpty then ([], [])
         else delete_gists (runEngine items cfg).toDelete cfg.dry_run
           cfg.deleteOracle 0).2 := rfl

lemma runEngine_merged (items : List Item) (cfg : RunConfig) :
    (runEngine items cfg).merged
      = merge_items (runEngine items cfg).toCreate (runEngine items cfg).created
          (runEngine items cfg).toUpdate (runEngine items cfg).updated
          (runEngine items cfg).toSkip (runEngine items cfg).toDelete
          (runEngine items cfg).deleted := rfl

lemma runEngine_writesOutput (items : List Item) (cfg : RunConfig) :
    (runEngine items cfg).writesOutput = !(runEngine items cfg).merged.isEmpty := rfl

lemma createPayload_files (i : Item) :
    (createPayload i).files
      = [(i.filename.getD defaultFilename,
          { content := dumps (i.content.getD (Json.obj [])) })] := rfl

lemma updatePayload_files (i : Item) :
    (updatePayload i).files
      = [(i.filename.getD defaultFilename,
          { content := dumps (i.content.getD (Json.obj [])) })] := rfl

lemma create_gists_cons_success (i : Item) (rest : List Item)
    (oracle : Nat → CreateResp) (k : Nat) (gid : String)
    (h : truthyId i.id = false) (ho : oracle k = .success gid) :
    create_gists (i :: rest) false oracle k =
      ({ i with id := some gid } :: (create_gists rest false oracle (k + 1)).1,
       .post (createPayload i) :: (create_gists rest false oracle (k + 1)).2) := by
  simp [create_gists, h, createPayload, ho]

lemma create_gists_cons_failure (i : Item) (rest : List Item)
    (oracle : Nat → CreateResp) (k : Nat)
    (h : truthyId i.id = false) (ho : oracle k = .failure) :
    create_gists (i :: rest) false oracle k =
      ((create_gists rest false oracle (k + 1)).1,
       .post (createPayload i) :: (create_gists rest false oracle (k + 1)).2) := by
  simp [create_gists, h, createPayload, ho]

lemma create_gists_all_success (items : List Item) (oracle : Nat → CreateResp)
    (hor : ∀ n, oracle n ≠ CreateResp.failure)
    (hitems : ∀ i ∈ items, truthyId i.id = false) (k : Nat) :
    (create_gists items false oracle k).1 = assignIds items oracle k := by
  induction items generalizing k with
  | nil => rfl
  | cons i rest ih =>
    have hi : truthyId i.id = false := hitems i (List.mem_cons_self i rest)
    have hrest : ∀ j ∈ rest, truthyId j.id = false :=
      fun j hj => hitems j (List.mem_cons_of_mem i hj)
    cases ho : oracle k with
    | success gid =>
      rw [create_gists_cons_success i rest oracle k gid hi ho]
      simp [assignIds, ho, respId, ih hrest]
    | failure => exact absurd ho (hor k)

lemma create_gists_created_id (items : List Item) (dry : Bool)
    (oracle : Nat → CreateResp) (k : Nat) :
    ∀ i' ∈ (create_gists items dry oracle k).1, ∃ g, i'.id = some g := by
  induction items generalizing k with
  | nil => intro i' h; cases h
  | cons i rest ih =>
    intro i' h
    by_cases hi : truthyId i.id = true
    · exact ih k i' (by simpa [create_gists, hi] using h)
    · by_cases hd : dry = true
      · subst hd; exact ih k i' (by simpa [create_gists, hi, createPayload] using h)
      · have hd' : dry = false := by revert hd; cases dry <;> simp
        subst hd'
        cases ho : oracle k with
        | success gid =>
          rw [create_gists_cons_success i rest oracle k gid (by simpa using hi) ho] at h
          simp only [List.mem_cons] at h
          rcases h with rfl | h
          · exact ⟨gid, rfl⟩
          · exact ih (k + 1) i' h
        | failure =>
          rw [create_gists_cons_failure i rest oracle k (by simpa using hi) ho] at h
          exact ih (k + 1) i' h

lemma classifyItem_create_iff (i : Item) :
    classifyItem i = Bucket.create ↔ isCreateItem i = true := by
  unfold classifyItem
  constructor
  · intro h
    by_cases h1 : isDeleteItem i = true
    · simp [h1] at h
    · by_cases h2 : isUpdateItem i = true
      · simp [h1, h2] at h
      · by_cases h3 : isCreateItem i = true
        · exact h3
        · simp [h1, h2, h3] at h
  · intro h3
    have h1 : isDeleteItem i = false := by
      revert h3
      unfold isCreateItem isDeleteItem
      cases hop : i.operation with
      | none => simp
      | some s => rcases ht : truthyId i.id <;> simp [ht]
    have h2 : isUpdateItem i = false := by
      revert h3
      unfold isCreateItem isUpdateItem
      cases hop : i.operation with
      | none => simp
      | some s =>
        rcases ht : truthyId i.id <;> simp [ht]
    simp [h1, h2, h3]

lemma classifyItem_update_iff (i : Item) :
    classifyItem i = Bucket.update ↔
      (isDeleteItem i = false ∧ isUpdateItem i = true) := by
  unfold classifyItem
  by_cases h1 : isDeleteItem i = true
  · simp [h1]
  · by_cases h2 : isUpdateItem i = true
    · simp [h1, h2]
    · by_cases h3 : isCreateItem i = true <;> simp [h1, h2, h3]

lemma classifyItem_delete_iff (i : Item) :
    classifyItem i = Bucket.delete ↔ isDeleteItem i = true := by
  unfold classifyItem
  by_cases h1 : isDeleteItem i = true
  · simp [h1]
  · by_cases h2 : isUpdateItem i = true
    · simp [h1, h2]
    · by_cases h3 : isCreateItem i = true <;> simp [h1, h2, h3]

lemma isCreateItem_operation (i : Item)
    (h : isCreateItem i = true) :
    i.operation = some "create" ∨ i.operation = none := by
  unfold isCreateItem at h
  simp only [Bool.and_eq_true, Bool.or_eq_true, beq_iff_eq] at h
  exact h.1

lemma classifyItem_skip_of_create_success (orig : Item) (g : String)
    (horig : isCreateItem orig = true) (hg : g ≠ "") :
    classifyItem { orig with id := some g } = Bucket.skip := by
  have hge : g.isEmpty = false := by
    cases hgs : g.isEmpty
    · rfl
    · exact absurd ((String.isEmpty_iff g).mp hgs) hg
  have ht : truthyId (some g) = true := by
    simp [truthyId, hge]
  rcases isCreateItem_operation orig horig with hop | hop <;>
    simp [classifyItem, isDeleteItem, isUpdateItem, isCreateItem, hop, ht]

lemma assignIds_classify (items : List Item) (oracle : Nat → CreateResp)
    (hor : ∀ n, ∃ g, oracle n = CreateResp.success g ∧ g ≠ "")
    (hitems : ∀ i ∈ items, isCreateItem i = true) :
    ∀ k, ∀ i' ∈ assignIds items oracle k, classifyItem i' = Bucket.skip := by
  induction items with
  | nil => intro k i' h; cases h
  | cons i rest ih =>
    intro k i' h
    simp only [assignIds, List.mem_cons] at h
    rcases h with rfl | h
    · obtain ⟨g, hg, hg'⟩ := hor k
      rw [hg]
      exact classifyItem_skip_of_create_success i (respId (CreateResp.success g))
        (hitems i (List.mem_cons_self i rest)) (by simpa [respId] using hg')
    · exact ih (fun j hj => hitems j (List.mem_cons_of_mem i hj)) (k + 1) i' h

lemma update_gists_all_success (items : List Item) (oracle : Nat → UpdateResp)
    (hor : ∀ n, oracle n = UpdateResp.success)
    (hitems : ∀ i ∈ items, truthyId i.id = true) (k : Nat) :
    update_gists items false oracle k
      = (items, items.map (fun i => .patch (i.id.getD "") (updatePayload i))) := by
  induction items generalizing k with
  | nil => rfl
  | cons i rest ih =>
    have hi : truthyId i.id = true := hitems i (List.mem_cons_self i rest)
    have hrest : ∀ j ∈ rest, truthyId j.id = true :=
      fun j hj => hitems j (List.mem_cons_of_mem i hj)
    simp [update_gists, hi, updatePayload, hor k, ih hrest]

lemma update_gists_updated_truthy (items : List Item) (dry : Bool)
    (oracle : Nat → UpdateResp) (k : Nat) :
    ∀ i' ∈ (update_gists items dry oracle k).1, truthyId i'.id = true := by
  induction items generalizing k with
  | nil => intro i' h; cases h
  | cons i rest ih =>
    intro i' h
    by_cases hi : truthyId i.id = true
    · by_cases hd : dry = true
      · subst hd
        exact ih k i' (by simpa [update_gists, hi, updatePayload] using h)
      · have hd' : dry = false := by revert hd; cases dry <;> simp
        subst hd'
        cases ho : oracle k with
        | success =>
          rw [show update_gists (i :: rest) false oracle k
              = (i :: (update_gists rest false oracle (k + 1)).1,
                 .patch (i.id.getD "") (updatePayload i)
                   :: (update_gists rest false oracle (k + 1)).2) by
            simp [update_gists, hi, updatePayload, ho]] at h
          simp only [List.mem_cons] at h
          rcases h with rfl | h
          · exact hi
          · exact ih (k + 1) i' h
        | failure =>
          rw [show update_gists (i :: rest) false oracle k
              = ((update_gists rest false oracle (k + 1)).1,
                 .patch (i.id.getD "") (updatePayload i)
                   :: (update_gists rest false oracle (k + 1)).2) by
            simp [update_gists, hi, updatePayload, ho]] at h
          exact ih (k + 1) i' h
    · have hi' : truthyId i.id = false := by revert hi; cases truthyId i.id <;> simp
      exact ih k i' (by simpa [update_gists, hi'] using h)

lemma update_gists_calls_patch (items : List Item) (dry : Bool)
    (oracle : Nat → UpdateResp) (k : Nat) :
    ∀ c ∈ (update_gists items dry oracle k).2, ∃ gid p, c = RemoteCall.patch gid p := by
  induction items generalizing k with
  | nil => intro c h; cases h
  | cons i rest ih =>
    intro c h
    by_cases hi : truthyId i.id = true
    · by_cases hd : dry = true
      · subst hd
        exact ih k c (by simpa [update_gists, hi, updatePayload] using h)
      · have hd' : dry = false := by revert hd; cases dry <;> simp
        subst hd'
        cases ho : oracle k with
        | success =>
          rw [show update_gists (i :: rest) false oracle k
              = (i :: (update_gists rest false oracle (k + 1)).1,
                 .patch (i.id.getD "") (updatePayload i)
                   :: (update_gists rest false oracle (k + 1)).2) by
            simp [update_gists, hi, updatePayload, ho]] at h
          simp only [List.mem_cons] at h
          rcases h with rfl | h
          · exact ⟨i.id.getD "", updatePayload i, rfl⟩
          · exact ih (k + 1) c h
        | failure =>
          rw [show update_gists (i :: rest) false oracle k
              = ((update_gists rest false oracle (k + 1)).1,
                 .patch (i.id.getD "") (updatePayload i)
                   :: (update_gists rest false oracle (k + 1)).2) by
            simp [update_gists, hi, updatePayload, ho]] at h
          simp only [List.mem_cons] at h
          rcases h with rfl | h
          · exact ⟨i.id.getD "", updatePayload i, rfl⟩
          · exact ih (k + 1) c h
    · have hi' : truthyId i.id = false := by revert hi; cases truthyId i.id <;> simp
      exact ih k c (by simpa [update_gists, hi'] using h)

lemma delete_gists_all_success (ids : List String) (oracle : Nat → DeleteResp)
    (hor : ∀ n, oracle n = DeleteResp.success) (k : Nat) :
    delete_gists ids false oracle k = (ids, ids.map RemoteCall.del) := by
  induction ids generalizing k with
  | nil => rfl
  | cons gid rest ih => simp [delete_gists, hor k, ih]

lemma merge_items_eq (tc created tu updated ts : List Item)
    (td deleted : List String)
    (hc : created ≠ [] → tc ≠ []) (hu : updated ≠ [] → tu ≠ []) :
    merge_items tc created tu updated ts td deleted
      = created.map MergedEntry.item ++ updated.map MergedEntry.item
        ++ ts.map MergedEntry.item
        ++ (if td ≠ [] ∧ deleted = [] then td.map MergedEntry.deleteId else []) := by
  unfold merge_items
  have e1 : (if !tc.isEmpty && created.length > 0
      then created.map MergedEntry.item else []) = created.map MergedEntry.item := by
    cases created with
    | nil => simp
    | cons a l =>
      have htc : tc ≠ [] := hc (by simp)
      have : tc.isEmpty = false := by
        cases tc
        · exact absurd rfl htc
        · rfl
      simp [this]
  have e2 : (if !tu.isEmpty && updated.length > 0
      then updated.map MergedEntry.item else []) = updated.map MergedEntry.item := by
    cases updated with
    | nil => simp
    | cons a l =>
      have htu : tu ≠ [] := hu (by simp)
      have : tu.isEmpty = false := by
        cases tu
        · exact absurd rfl htu
        · rfl
      simp [this]
  have e3 : (if ts.length > 0 then ts.map MergedEntry.item else [])
      = ts.map MergedEntry.item := by
    cases ts <;> simp
  have e4 : (if td.length > 0 && deleted.length == 0
      then td.map MergedEntry.deleteId else [])
      = (if td ≠ [] ∧ deleted = [] then td.map MergedEntry.deleteId else []) := by
    cases td with
    | nil => simp
    | cons a l =>
      cases deleted with
      | nil => simp
      | cons b m => simp
  rw [e1, e2, e3, e4]

lemma itemsOfMerged_map (l : List Item) :
    itemsOfMerged (l.map MergedEntry.item) = l := by
  induction l with
  | nil => rfl
  | cons i rest ih => simp [itemsOfMerged] at ih ⊢; exact ih

lemma isUpdateItem_truthy (i : Item) (h : isUpdateItem i = true) :
    truthyId i.id = true := by
  unfold isUpdateItem at h
  exact (Bool.and_eq_true _ _ ▸ h).2

lemma isCreateItem_not_truthy (i : Item) (h : isCreateItem i = true) :
    truthyId i.id = false := by
  unfold isCreateItem at h
  have := (Bool.and_eq_true _ _ ▸ h).2
  revert this
  cases truthyId i.id <;> simp

lemma mem_toCreate_isCreate (items : List Item) (cfg : RunConfig) :
    ∀ i ∈ (runEngine items cfg).toCreate, isCreateItem i = true := by
  rw [runEngine_toCreate]
  intro i hi
  rw [List.mem_filter] at hi
  exact (classifyItem_create_iff i).mp (by simpa using hi.2)

lemma mem_toUpdate_classify (items : List Item) (cfg : RunConfig) :
    ∀ i ∈ (runEngine items cfg).toUpdate, classifyItem i = Bucket.update := by
  rw [runEngine_toUpdate]
  intro i hi
  rw [List.mem_filter] at hi
  simpa using hi.2

lemma mem_toSkip_classify (items : List Item) (cfg : RunConfig) :
    ∀ i ∈ (runEngine items cfg).toSkip, classifyItem i = Bucket.skip := by
  rw [runEngine_toSkip]
  intro i hi
  rw [List.mem_filter] at hi
  simpa using hi.2

lemma runEngine_merge_shape (items : List Item) (cfg : RunConfig) :
    (runEngine items cfg).merged
      = (runEngine items cfg).created.map MergedEntry.item
        ++ (runEngine items cfg).updated.map MergedEntry.item
        ++ (runEngine items cfg).toSkip.map MergedEntry.item
        ++ (if (runEngine items cfg).toDelete ≠ []
              ∧ (runEngine items cfg).deleted = []
            then (runEngine items cfg).toDelete.map MergedEntry.deleteId
            else []) := by
  rw [runEngine_merged]
  apply merge_items_eq
  · intro h
    rw [runEngine_created] at h
    by_cases he : (runEngine items cfg).toCreate.isEmpty = true
    · simp [he] at h
    · intro hnil
      rw [hnil] at he
      exact he rfl
  · intro h
    rw [runEngine_updated] at h
    by_cases he : (runEngine items cfg).toUpdate.isEmpty = true
    · simp [he] at h
    · intro hnil
      rw [hnil] at he
      exact he rfl

lemma runEngine_created_all_success (items : List Item) (cfg : RunConfig)
    (hd : cfg.dry_run = false)
    (hc : ∀ n, cfg.createOracle n ≠ CreateResp.failure) :
    (runEngine items cfg).created
      = assignIds (runEngine items cfg).toCreate cfg.createOracle 0 := by
  rw [runEngine_created, hd]
  by_cases he : (runEngine items cfg).toCreate.isEmpty = true
  · have : (runEngine items cfg).toCreate = [] := by
      cases hh : (runEngine items cfg).toCreate
      · rfl
      · rw [hh] at he; cases he
    simp [he, this, assignIds]
  · rw [if_neg he]
    exact create_gists_all_success _ _ hc
      (fun i hi => isCreateItem_not_truthy i (mem_toCreate_isCreate items cfg i hi)) 0

lemma runEngine_updated_all_success (items : List Item) (cfg : RunConfig)
    (hd : cfg.dry_run = false)
    (hu : ∀ n, cfg.updateOracle n = UpdateResp.success) :
    (runEngine items cfg).updated = (runEngine items cfg).toUpdate := by
  rw [runEngine_updated, hd]
  by_cases he : (runEngine items cfg).toUpdate.isEmpty = true
  · have : (runEngine items cfg).toUpdate = [] := by
      cases hh : (runEngine items cfg).toUpdate
      · rfl
      · rw [hh] at he; cases he
    simp [he, this]
  · rw [if_neg he]
    rw [update_gists_all_success _ _ hu
      (fun i hi => isUpdateItem_truthy i
        ((classifyItem_update_iff i).mp (mem_toUpdate_classify items cfg i hi)).2) 0]

lemma runEngine_deleted_all_success (items : List Item) (cfg : RunConfig)
    (hd : cfg.dry_run = false)
    (hdel : ∀ n, cfg.deleteOracle n = DeleteResp.success) :
    (runEngine items cfg).deleted = (runEngine items cfg).toDelete := by
  rw [runEngine_deleted, hd]
  by_cases he : (runEngine items cfg).toDelete.isEmpty = true
  · have : (runEngine items cfg).toDelete = [] := by
      cases hh : (runEngine items cfg).toDelete
      · rfl
      · rw [hh] at he; cases he
    simp [he, this]
  · rw [if_neg he]
    rw [delete_gists_all_success _ _ hdel 0]

lemma runEngine_merged_all_success (items : List Item) (cfg : RunConfig)
    (hd : cfg.dry_run = false)
    (hdel : ∀ n, cfg.deleteOracle n = DeleteResp.success) :
    (runEngine items cfg).merged
      = ((runEngine items cfg).created ++ (runEngine items cfg).updated
          ++ (runEngine items cfg).toSkip).map MergedEntry.item := by
  rw [runEngine_merge_shape, runEngine_deleted_all_success items cfg hd hdel]
  have hcond : ¬((runEngine items cfg).toDelete ≠ []
      ∧ (runEngine items cfg).toDelete = []) := by
    rintro ⟨h1, h2⟩
    exact h1 h2
  rw [if_neg hcond]
  simp

lemma classify_update_truthy (i : Item) (h : classifyItem i = Bucket.update) :
    truthyId i.id = true :=
  isUpdateItem_truthy i ((classifyItem_update_iff i).mp h).2

lemma runEngine_skip_update_skip (A B C : List Item) (cfg : RunConfig)
    (hd : cfg.dry_run = false)
    (hu : ∀ n, cfg.updateOracle n = UpdateResp.success)
    (hA : ∀ i ∈ A, classifyItem i = Bucket.skip)
    (hB : ∀ i ∈ B, classifyItem i = Bucket.update)
    (hC : ∀ i ∈ C, classifyItem i = Bucket.skip) :
    (runEngine (A ++ B ++ C) cfg).toCreate = []
    ∧ (runEngine (A ++ B ++ C) cfg).toDelete = []
    ∧ (runEngine (A ++ B ++ C) cfg).toUpdate = B
    ∧ (runEngine (A ++ B ++ C) cfg).toSkip = A ++ C
    ∧ (runEngine (A ++ B ++ C) cfg).updated = B
    ∧ (runEngine (A ++ B ++ C) cfg).merged = (B ++ A ++ C).map MergedEntry.item
    ∧ (∀ c ∈ (runEngine (A ++ B ++ C) cfg).calls,
        ∃ gid p, c = RemoteCall.patch gid p) := by
  have hfA : ∀ b, b ≠ Bucket.skip →
      A.filter (fun i => classifyItem i == b) = [] := by
    intro b hb
    rw [List.filter_eq_nil_iff]
    intro i hi
    simp [hA i hi, hb.symm]
  have hfC : ∀ b, b ≠ Bucket.skip →
      C.filter (fun i => classifyItem i == b) = [] := by
    intro b hb
    rw [List.filter_eq_nil_iff]
    intro i hi
    simp [hC i hi, hb.symm]
  have hfB : ∀ b, b ≠ Bucket.update →
      B.filter (fun i => classifyItem i == b) = [] := by
    intro b hb
    rw [List.filter_eq_nil_iff]
    intro i hi
    simp [hB i hi, hb.symm]
  have htc : (runEngine (A ++ B ++ C) cfg).toCreate = [] := by
    rw [runEngine_toCreate]
    simp only [List.filter_append]
    rw [hfA _ (by simp), hfB _ (by simp), hfC _ (by simp)]
    rfl
  have htd : (runEngine (A ++ B ++ C) cfg).toDelete = [] := by
    rw [runEngine_toDelete]
    simp only [List.filter_append]
    rw [hfA _ (by simp), hfB _ (by simp), hfC _ (by simp)]
    rfl
  have htu : (runEngine (A ++ B ++ C) cfg).toUpdate = B := by
    rw [runEngine_toUpdate]
    simp only [List.filter_append]
    rw [hfA _ (by simp), hfC _ (by simp),
      List.filter_eq_self.mpr (fun i hi => by simp [hB i hi])]
    simp
  have hts : (runEngine (A ++ B ++ C) cfg).toSkip = A ++ C := by
    rw [runEngine_toSkip]
    simp only [List.filter_append]
    rw [hfB _ (by simp),
      List.filter_eq_self.mpr (fun i hi => by simp [hA i hi]),
      List.filter_eq_self.mpr (fun i hi => by simp [hC i hi])]
    simp
  have hupd : (runEngine (A ++ B ++ C) cfg).updated = B := by
    rw [runEngine_updated_all_success _ _ hd hu, htu]
  have hcreated : (runEngine (A ++ B ++ C) cfg).created = [] := by
    rw [runEngine_created, htc]
    simp
  have hdeleted : (runEngine (A ++ B ++ C) cfg).deleted = [] := by
    rw [runEngine_deleted, htd]
    simp
  have hmerged : (runEngine (A ++ B ++ C) cfg).merged
      = (B ++ A ++ C).map MergedEntry.item := by
    rw [runEngine_merge_shape, hcreated, hupd, hts, htd]
    simp
  refine ⟨htc, htd, htu, hts, hupd, hmerged, ?_⟩
  intro c hc
  rw [runEngine_calls, htc, htd] at hc
  simp only [List.isEmpty_nil, if_pos, List.nil_append, List.append_nil] at hc
  by_cases he : (runEngine (A ++ B ++ C) cfg).toUpdate.isEmpty = true
  · rw [if_pos he] at hc
    simp at hc
  · rw [if_neg he] at hc
    exact update_gists_calls_patch _ _ _ _ c hc

lemma upsert_of_not_mem (m : List (String × GistMapEntry)) (k : String)
    (v : GistMapEntry) (h : m.any (fun p => p.1 == k) = false) :
    upsert m k v = m ++ [(k, v)] := by
  simp [upsert, h]

lemma gistMapStep_eq_upsert (username : String)
    (m : List (String × GistMapEntry)) (r : AllGistsRecord)
    (hf : truthyStr r.filename = true) (hg : truthyStr r.id = true) :
    gistMapStep username m r
      = upsert m (r.filename.getD "")
          ⟨r.id.getD "",
           rawUrlFor username (r.id.getD "") (r.history.headD "")
             (r.filename.getD "")⟩ := by
  simp [gistMapStep, hf, hg]

lemma generate_map_go (username : String) (gists : List AllGistsRecord)
    (acc : List (String × GistMapEntry))
    (hall : ∀ r ∈ gists, truthyStr r.filename = true ∧ truthyStr r.id = true)
    (hnodup : (gists.map (fun r => r.filename.getD "")).Nodup)
    (hdisj : ∀ r ∈ gists, acc.any (fun p => p.1 == r.filename.getD "") = false) :
    gists.foldl (gistMapStep username) acc
      = acc ++ gists.map (fun r =>
          (r.filename.getD "",
           ⟨r.id.getD "",
            rawUrlFor username (r.id.getD "") (r.history.headD "")
              (r.filename.getD "")⟩)) := by
  induction gists generalizing acc with
  | nil => simp
  | cons r rest ih =>
    obtain ⟨hf, hg⟩ := hall r (List.mem_cons_self r rest)
    have hnotin : (r.filename.getD "") ∉ rest.map (fun x => x.filename.getD "") :=
      (List.nodup_cons.mp hnodup).1
    have hstep : gistMapStep username acc r
        = acc ++ [(r.filename.getD "",
            ⟨r.id.getD "",
             rawUrlFor username (r.id.getD "") (r.history.headD "")
               (r.filename.getD "")⟩)] := by
      rw [gistMapStep_eq_upsert username acc r hf hg]
      exact upsert_of_not_mem _ _ _ (hdisj r (List.mem_cons_self r rest))
    simp only [List.foldl_cons, hstep]
    rw [ih _ (fun x hx => hall x (List.mem_cons_of_mem r hx))
      (List.nodup_cons.mp hnodup).2 ?_]
    · simp
    · intro x hx
      rw [List.any_append]
      have h1 : acc.any (fun p => p.1 == x.filename.getD "") = false :=
        hdisj x (List.mem_cons_of_mem r hx)
      have h2 : (r.filename.getD "") ≠ (x.filename.getD "") := by
        intro hcon
        exact hnotin (hcon ▸ List.mem_map_of_mem (fun y => y.filename.getD "") hx)
      simp [h1, h2]

/-- C1: `segregate_gists` routes every input item into exactly one of the
four groups following the priority rules (delete-with-id collects the
identifier only, then update-with-id, then create-or-absent-without-id,
else skip), so the groups partition the input with no duplication and no
omission: the three item groups are exactly the sub-lists of items
classified create / update / skip, the delete group is exactly the
identifiers of the delete-classified items, and the group sizes sum to
the input length. -/
theorem segregate_gists_partitions (items : List Item) :
    segregate_gists items
      = (items.filter (fun i => classifyItem i == Bucket.create),
         items.filter (fun i => classifyItem i == Bucket.update),
         (items.filter (fun i => classifyItem i == Bucket.delete)).map
           (fun i => i.id.getD ""),
         items.filter (fun i => classifyItem i == Bucket.skip))
    ∧ (segregate_gists items).1.length + (segregate_gists items).2.1.length
        + (segregate_gists items).2.2.1.length
        + (segregate_gists items).2.2.2.length = items.length
    ∧ (∀ i ∈ items,
        (isDeleteItem i = true → classifyItem i = Bucket.delete)
        ∧ (isDeleteItem i = false → isUpdateItem i = true →
            classifyItem i = Bucket.update)
        ∧ (isDeleteItem i = false → isUpdateItem i = false →
            isCreateItem i = true → classifyItem i = Bucket.create)
        ∧ (isDeleteItem i = false → isUpdateItem i = false →
            isCreateItem i = false → classifyItem i = Bucket.skip)) := by
  refine ⟨segregate_gists_eq_filters items, segregate_gists_length items, ?_⟩
  intro i _
  exact ⟨fun h1 => by simp [classifyItem, h1],
    fun h1 h2 => by simp [classifyItem, h1, h2],
    fun h1 h2 h3 => by simp [classifyItem, h1, h2, h3],
    fun h1 h2 h3 => by simp [classifyItem, h1, h2, h3]⟩

/-- Witness for C1 at a concrete delete-tagged item. -/
theorem segregate_gists_partitions_witness :
    segregate_gists [deleteItem0] = ([], [], ["g1"], [])
    ∧ classifyItem deleteItem0 = Bucket.delete := by
  have h := segregate_gists_partitions [deleteItem0]
  refine ⟨?_, ?_⟩
  · rw [h.1]
    rfl
  · exact (h.2.2 deleteItem0 (List.mem_cons_self _ _)).1 (by decide)

/-- C2 counterexample: for the claim's own scenario — one create item
`{id: null, filename: "a.json", content: {k: 1}, operation: "create"}`
with the remote create answering id `"g1"` — the merged output is the
item with only `id` assigned; its `raw_url` is still `none`, not a URL,
because `create_gists` runs `item.update({"id": gist_id})` and never
writes `raw_url`. -/
theorem create_scenario_no_raw_url :
    (runEngine [createItem0] cfgAllOk).merged
      = [MergedEntry.item { createItem0 with id := some "g1" }]
    ∧ ({ createItem0 with id := some "g1" } : Item).raw_url = none :=
  ⟨rfl, rfl⟩

/-- C2 (amended): for every create-group item, a successful remote create
assigns exactly the returned identifier onto the item (no other field —
in particular not `raw_url`) and appends it to the created-list, a failed
call (non-201 or transport error) logs and drops the item from all
output, and in the claim's scenario the merged output is the input item
with `id = "g1"` and `raw_url` unset. -/
theorem create_gists_outcome (i : Item) (rest : List Item)
    (oracle : Nat → CreateResp) (k : Nat) (gid : String)
    (h : truthyId i.id = false) :
    (oracle k = CreateResp.success gid →
      create_gists (i :: rest) false oracle k
        = ({ i with id := some gid } :: (create_gists rest false oracle (k + 1)).1,
           RemoteCall.post (createPayload i)
             :: (create_gists rest false oracle (k + 1)).2))
    ∧ (oracle k = CreateResp.failure →
      create_gists (i :: rest) false oracle k
        = ((create_gists rest false oracle (k + 1)).1,
           RemoteCall.post (createPayload i)
             :: (create_gists rest false oracle (k + 1)).2))
    ∧ ({ i with id := some gid } : Item).raw_url = i.raw_url
    ∧ (runEngine [createItem0] cfgAllOk).merged
        = [MergedEntry.item { createItem0 with id := some "g1" }] :=
  ⟨fun ho => create_gists_cons_success i rest oracle k gid h ho,
   fun ho => create_gists_cons_failure i rest oracle k h ho, rfl, rfl⟩

/-- Witness for C2 (amended): the scenario item has a falsy id and the
executor run on it alone yields exactly the id-assigned item and one POST. -/
theorem create_gists_outcome_witness :
    truthyId createItem0.id = false
    ∧ create_gists [createItem0] false (fun _ => CreateResp.success "g1") 0
        = ([{ createItem0 with id := some "g1" }],
           [RemoteCall.post (createPayload createItem0)]) := by
  refine ⟨rfl, ?_⟩
  rw [(create_gists_outcome createItem0 []
    (fun _ => CreateResp.success "g1") 0 "g1" rfl).1 rfl]
  rfl

/-- C3: the merged output is, in this fixed order, the successfully
created items, then the successfully updated items, then all skipped
items unchanged, with the original delete identifiers appended verbatim
exactly when the delete group was non-empty and zero deletions
succeeded. -/
theorem merged_is_ordered_concat (items : List Item) (cfg : RunConfig) :
    (runEngine items cfg).merged
      = (runEngine items cfg).created.map MergedEntry.item
        ++ (runEngine items cfg).updated.map MergedEntry.item
        ++ (runEngine items cfg).toSkip.map MergedEntry.item
        ++ (if (runEngine items cfg).toDelete ≠ []
              ∧ (runEngine items cfg).deleted = []
            then (runEngine items cfg).toDelete.map MergedEntry.deleteId
            else []) :=
  runEngine_merge_shape items cfg

/-- C5 counterexample: one update-tagged item, every remote call
succeeding, no dry-run.  The first run's output retains the item
verbatim, `operation: "update"` tag included (tags are never stripped),
so the second run classifies it for update again and issues a further
PATCH — the second run does perform an update, and the tag is not
absent. -/
theorem second_run_repeats_update :
    (runEngine [updateItem0] cfgAllOk).merged = [MergedEntry.item updateItem0]
    ∧ updateItem0.operation = some "update"
    ∧ (runEngine (itemsOfMerged (runEngine [updateItem0] cfgAllOk).merged)
        cfgAllOk).calls
      = [RemoteCall.patch "g1" (updatePayload updateItem0)]
    ∧ [RemoteCall.patch "g1" (updatePayload updateItem0)]
        ≠ ([] : List RemoteCall) :=
  ⟨rfl, rfl, rfl, List.cons_ne_nil _ _⟩

/-- C5 (amended): with every remote call of both runs succeeding (create
answers carrying non-empty ids) and no dry-run, the second run creates
nothing and deletes nothing, re-classifies exactly the previously updated
items for update and re-updates them (every remote call of the second run
is a PATCH), and its merged output is the first run's output with the
updated items moved in front of the created ones — `operation` tags are
retained, not stripped, so the runs are NOT idempotent for updates. -/
theorem run_twice (items : List Item) (cfg1 cfg2 : RunConfig)
    (hd1 : cfg1.dry_run = false) (hd2 : cfg2.dry_run = false)
    (hc1 : ∀ n, ∃ g, cfg1.createOracle n = CreateResp.success g ∧ g ≠ "")
    (hu1 : ∀ n, cfg1.updateOracle n = UpdateResp.success)
    (hdel1 : ∀ n, cfg1.deleteOracle n = DeleteResp.success)
    (hu2 : ∀ n, cfg2.updateOracle n = UpdateResp.success) :
    (runEngine (itemsOfMerged (runEngine items cfg1).merged) cfg2).toCreate = []
    ∧ (runEngine (itemsOfMerged (runEngine items cfg1).merged) cfg2).toDelete = []
    ∧ (runEngine (itemsOfMerged (runEngine items cfg1).merged) cfg2).toUpdate
        = (runEngine items cfg1).updated
    ∧ (runEngine (itemsOfMerged (runEngine items cfg1).merged) cfg2).updated
        = (runEngine items cfg1).updated
    ∧ (runEngine (itemsOfMerged (runEngine items cfg1).merged) cfg2).merged
        = ((runEngine items cfg1).updated ++ (runEngine items cfg1).created
            ++ (runEngine items cfg1).toSkip).map MergedEntry.item
    ∧ (∀ c ∈ (runEngine (itemsOfMerged (runEngine items cfg1).merged) cfg2).calls,
        ∃ gid p, c = RemoteCall.patch gid p) := by
  have hinput : itemsOfMerged (runEngine items cfg1).merged
      = (runEngine items cfg1).created ++ (runEngine items cfg1).updated
          ++ (runEngine items cfg1).toSkip := by
    rw [runEngine_merged_all_success items cfg1 hd1 hdel1, itemsOfMerged_map]
  have hA : ∀ i ∈ (runEngine items cfg1).created,
      classifyItem i = Bucket.skip := by
    rw [runEngine_created_all_success items cfg1 hd1
      (fun n hn => by obtain ⟨g, hg, _⟩ := hc1 n; rw [hg] at hn; cases hn)]
    exact assignIds_classify _ _ hc1 (mem_toCreate_isCreate items cfg1) 0
  have hB : ∀ i ∈ (runEngine items cfg1).updated,
      classifyItem i = Bucket.update := by
    rw [runEngine_updated_all_success items cfg1 hd1 hu1]
    exact mem_toUpdate_classify items cfg1
  have hC : ∀ i ∈ (runEngine items cfg1).toSkip,
      classifyItem i = Bucket.skip :=
    mem_toSkip_classify items cfg1
  have key := runEngine_skip_update_skip (runEngine items cfg1).created
    (runEngine items cfg1).updated (runEngine items cfg1).toSkip cfg2
    hd2 hu2 hA hB hC
  rw [hinput]
  exact ⟨key.1, key.2.1, key.2.2.1, key.2.2.2.2.1,
    key.2.2.2.2.2.1, key.2.2.2.2.2.2⟩

/-- Witness for C5 (amended) at the single-update input with all-success
oracles. -/
theorem run_twice_witness :
    cfgAllOk.dry_run = false
    ∧ (runEngine (itemsOfMerged (runEngine [updateItem0] cfgAllOk).merged)
        cfgAllOk).updated = (runEngine [updateItem0] cfgAllOk).updated
    ∧ (runEngine (itemsOfMerged (runEngine [updateItem0] cfgAllOk).merged)
        cfgAllOk).toCreate = [] := by
  have h := run_twice [updateItem0] cfgAllOk cfgAllOk rfl rfl
    (fun _ => ⟨"g1", rfl, by decide⟩) (fun _ => rfl) (fun _ => rfl) (fun _ => rfl)
  exact ⟨rfl, h.2.2.2.1, h.1⟩

/-- C6 counterexample: an item tagged `fetched` and carrying no
identifier matches no classification rule, is routed to skip, and
survives the (fully successful) run in the output with `id` still unset —
refuting "every surviving item has its identifier set". -/
theorem skipped_item_survives_without_id :
    (runEngine [fetchedItem0] cfgAllOk).merged
      = [MergedEntry.item fetchedItem0]
    ∧ fetchedItem0.id = none :=
  ⟨rfl, rfl⟩

/-- C6 (amended): after a run, every created item in the output carries
the identifier assigned from the remote response and every updated item
kept its truthy identifier; skipped items pass through entirely
unchanged — equal to the skip-classified sub-list of the input — and may
therefore lack an identifier. -/
theorem surviving_items_identifier (items : List Item) (cfg : RunConfig) :
    (∀ i ∈ (runEngine items cfg).created, ∃ g, i.id = some g)
    ∧ (∀ i ∈ (runEngine items cfg).updated, truthyId i.id = true)
    ∧ (runEngine items cfg).toSkip
        = items.filter (fun i => classifyItem i == Bucket.skip) := by
  refine ⟨?_, ?_, runEngine_toSkip items cfg⟩
  · intro i hi
    rw [runEngine_created] at hi
    by_cases he : (runEngine items cfg).toCreate.isEmpty = true
    · rw [if_pos he] at hi
      simp at hi
    · rw [if_neg he] at hi
      exact create_gists_created_id _ _ _ _ i hi
  · intro i hi
    rw [runEngine_updated] at hi
    by_cases he : (runEngine items cfg).toUpdate.isEmpty = true
    · rw [if_pos he] at hi
      simp at hi
    · rw [if_neg he] at hi
      exact update_gists_updated_truthy _ _ _ _ i hi

/-- Witness for C6 (amended): the updated item of the single-update run
has a truthy identifier. -/
theorem surviving_items_identifier_witness :
    truthyId updateItem0.id = true := by
  refine (surviving_items_identifier [updateItem0] cfgAllOk).2.1 updateItem0 ?_
  show updateItem0 ∈ (runEngine [updateItem0] cfgAllOk).updated
  exact List.mem_singleton_self updateItem0

/-- C7: the loader fails with the invalid-input error (an uncaught
`ValueError`) exactly when the parsed root is not a sequence, fails with
the IO error exactly when the source cannot be read or parsed, both are
fatal with process exit code 1, and on success it returns the parsed
elements verbatim, preserving input order. -/
theorem load_json_spec :
    (∀ e, load_json (Except.error e) = Except.error (LoadError.ioError e)
      ∧ loadExitCode (load_json (Except.error e)) = some 1)
    ∧ (∀ j, (∀ elems, j ≠ Json.arr elems) →
        load_json (Except.ok j)
          = Except.error (LoadError.invalidInput
              "Input JSON must be a list of gist items.")
        ∧ loadExitCode (load_json (Except.ok j)) = some 1)
    ∧ (∀ elems, load_json (Except.ok (Json.arr elems)) = Except.ok elems
        ∧ loadExitCode (load_json (Except.ok (Json.arr elems))) = none) := by
  refine ⟨fun e => ⟨rfl, rfl⟩, ?_, fun elems => ⟨rfl, rfl⟩⟩
  intro j hj
  cases j with
  | arr elems => exact absurd rfl (hj elems)
  | null => exact ⟨rfl, rfl⟩
  | bool b => exact ⟨rfl, rfl⟩
  | num n => exact ⟨rfl, rfl⟩
  | str s => exact ⟨rfl, rfl⟩
  | obj fields => exact ⟨rfl, rfl⟩

/-- Witness for C7: a non-sequence root is rejected and a two-element
sequence is returned in order. -/
theorem load_json_spec_witness :
    load_json (Except.ok (Json.num 3))
      = Except.error (LoadError.invalidInput
          "Input JSON must be a list of gist items.")
    ∧ load_json (Except.ok (Json.arr [Json.num 1, Json.num 2]))
      = Except.ok [Json.num 1, Json.num 2] :=
  ⟨(load_json_spec.2.1 (Json.num 3) (fun elems h => by cases h)).1,
   (load_json_spec.2.2 [Json.num 1, Json.num 2]).1⟩

/-- C8 counterexample: a record with a non-null identifier but no
filename is skipped by `generate_gist_id_json`'s
`if not (filename and gist_id): continue`, so the produced mapping has
zero entries although the list holds one item with a non-null
identifier — refuting "exactly one entry per item having a non-null
identifier". -/
theorem index_drops_unnamed :
    generate_map "bsubhamay" [noNameRecord] = []
    ∧ noNameRecord.id = some "g1"
    ∧ ([noNameRecord] : List AllGistsRecord).length = 1 :=
  ⟨rfl, rfl, rfl⟩

/-- C8 (amended): for a final list whose records each carry a truthy
filename and a truthy identifier, with filenames unique, the index
builder deterministically produces exactly one entry per record, keyed by
filename, carrying the identifier and the retrieval URL (which embeds the
revision marker exactly when one exists), and re-reading the
identifier-index document recovers exactly the (name, identifier)
pairs. -/
theorem index_round_trip (username : String) (gists : List AllGistsRecord)
    (hall : ∀ r ∈ gists, truthyStr r.filename = true ∧ truthyStr r.id = true)
    (hnodup : (gists.map (fun r => r.filename.getD "")).Nodup) :
    generate_map username gists
      = gists.map (fun r =>
          (r.filename.getD "",
           { id := r.id.getD ""
           , raw_url := rawUrlFor username (r.id.getD "") (r.history.headD "")
               (r.filename.getD "") }))
    ∧ (generate_map username gists).map (fun p => (p.1, p.2.id))
        = gists.map (fun r => (r.filename.getD "", r.id.getD ""))
    ∧ (generate_map username gists).length = gists.length
    ∧ generate_gist_id_json username (Except.ok gists)
        = some (generate_map username gists) := by
  have h := generate_map_go username gists [] hall hnodup (fun r _ => rfl)
  have hmain : generate_map username gists
      = gists.map (fun r =>
          (r.filename.getD "",
           { id := r.id.getD ""
           , raw_url := rawUrlFor username (r.id.getD "") (r.history.headD "")
               (r.filename.getD "") })) := by
    unfold generate_map
    rw [h]
    simp
  refine ⟨hmain, ?_, ?_, rfl⟩
  · rw [hmain, List.map_map]
    rfl
  · rw [hmain, List.length_map]

/-- Witness for C8 (amended) at a single fully-populated record. -/
theorem index_round_trip_witness :
    generate_map "bsubhamay" [fullRecord]
      = [("a.json",
          { id := "g1", raw_url := rawUrlFor "bsubhamay" "g1" "v1" "a.json" })]
    ∧ (generate_map "bsubhamay" [fullRecord]).length = 1 := by
  have h := index_round_trip "bsubhamay" [fullRecord]
    (fun r hr => by
      rw [List.mem_singleton] at hr
      subst hr
      exact ⟨rfl, rfl⟩)
    (by simp)
  exact ⟨by rw [h.1]; rfl, by rw [h.2.2.1]; rfl⟩

/-- C9: the output write happens exactly when the merged list is
non-empty (an empty merge reports nothing-to-do and exits without
writing; a non-empty merge fully replaces the output document), and in
the claim's scenario — one delete item whose remote delete succeeds — the
merged output is `[]` and the write is skipped entirely. -/
theorem write_iff_merged_nonempty :
    (∀ items cfg, ((runEngine items cfg).writesOutput = true
        ↔ (runEngine items cfg).merged ≠ []))
    ∧ (runEngine [deleteItem0] cfgAllOk).merged = []
    ∧ (runEngine [deleteItem0] cfgAllOk).writesOutput = false := by
  refine ⟨?_, rfl, rfl⟩
  intro items cfg
  rw [runEngine_writesOutput]
  cases hm : (runEngine items cfg).merged with
  | nil => simp
  | cons a l => simp

/-- Witness for C9: a run whose merge is non-empty does write. -/
theorem write_iff_merged_nonempty_witness :
    (runEngine [fetchedItem0] cfgAllOk).writesOutput = true :=
  (write_iff_merged_nonempty.1 [fetchedItem0] cfgAllOk).mpr
    (List.cons_ne_nil (MergedEntry.item fetchedItem0) [])

/-- C10: for every item, each of the two request payloads carries exactly
one file entry, keyed by the item's filename or the default
`untitled.json`, so the files mapping is never empty and the
"No files specified" skip branch is unreachable. -/
theorem payload_files_never_empty (i : Item) :
    (createPayload i).files
      = [(i.filename.getD defaultFilename,
          { content := dumps (i.content.getD (Json.obj [])) })]
    ∧ (updatePayload i).files
      = [(i.filename.getD defaultFilename,
          { content := dumps (i.content.getD (Json.obj [])) })]
    ∧ (createPayload i).files.length = 1
    ∧ (updatePayload i).files.length = 1
    ∧ (createPayload i).files.isEmpty = false
    ∧ (updatePayload i).files.isEmpty = false :=
  ⟨rfl, rfl, rfl, rfl, rfl, rfl⟩
